import Mathlib

/-!
# ZenKensa surface-inspection pipeline: a shallow embedding

This file embeds the decision-relevant parts of the ZenKensa AI surface
inspection system in Lean 4 and proves the specification's claims about it.

Embedded code:
* `app/main.py`: `apply_business_logic` (classifier-mode scoring) and the
  decision skeleton of the `predict` endpoint (gatekeeper band, rejection,
  defect evaluation, clamping and rounding of the response fields).
* `app/core/detector.py`: `ZenDetector.analyze_surface` (decode, grayscale,
  Gaussian blur, Canny edges, connected regions, area filter, verdict and
  defect score), including the catch-all failure branch.

Python floats are modelled as rationals; Python `round` is modelled as
banker's rounding. OpenCV primitives (decode, colour conversion, blur,
Canny, contour extraction), which are external library calls in the source,
are modelled as executable Lean functions whose doc comments state exactly
what is modelled.
-/

/-- Models Python's `math`-free built-in `round` to an integer:
rounding half to even (banker's rounding). -/
def roundHalfEven (q : ℚ) : ℤ :=
  let f := ⌊q⌋
  if q - f < 1/2 then f
  else if 1/2 < q - f then f + 1
  else if Even f then f else f + 1

/-- Models Python `round(x, n)`: banker's rounding at `n` decimal places. -/
def pyRound (n : ℕ) (q : ℚ) : ℚ :=
  (roundHalfEven (q * 10 ^ n) : ℚ) / 10 ^ n

/-- `apply_business_logic` from `app/main.py` (lines 350-364): classifier-mode
decision. `p ≤ 0.5` yields `PASS` with health `100 - p*20`; `p > 0.5` yields
`FAIL` with health `(1 - p)*80`; the health score is then clamped to
`[0, 100]`. Returns the `(status, health_score)` pair. -/
def apply_business_logic (defect_score : ℚ) : String × ℚ :=
  let r : String × ℚ :=
    if defect_score ≤ 1/2 then ("PASS", 100 - defect_score * 20)
    else ("FAIL", (1 - defect_score) * 80)
  (r.1, max 0 (min 100 r.2))

/-- The score-bearing fields of the JSON response of the `/predict` endpoint
in `app/main.py`. The free-text `message`/`explanation` fields and the
report/database side effects are not modelled. -/
structure PredictResponse where
  status : String
  metal_validation_score : ℚ
  defect_score : ℚ
  health_score : ℚ
deriving DecidableEq

/-- The success path of `predict` (`app/main.py` lines 419-439): run the
defect model, apply the business logic, clamp the three scores to their
ranges and round them as the source does. -/
def successResponse (metal_score defect_score : ℚ) : PredictResponse :=
  let s := apply_business_logic defect_score
  let m := max 0 (min 1 metal_score)
  let d := max 0 (min 1 defect_score)
  let h := max 0 (min 100 s.2)
  ⟨s.1, pyRound 4 m, pyRound 4 d, pyRound 2 h⟩

/-- The decision skeleton of the `predict` endpoint (`app/main.py`
lines 388-448), as a function of the gatekeeper score and the defect
inspection model. The defect model is passed as a thunk `inspectDefects`,
invoked only on the path that reaches defect evaluation, so that the
short-circuiting of the uncertain and rejection branches is explicit. -/
def predict (metal_score : ℚ) (inspectDefects : Unit → ℚ) : PredictResponse :=
  if 45/100 ≤ metal_score ∧ metal_score ≤ 55/100 then
    ⟨"UNCERTAIN", pyRound 4 metal_score, 0, 0⟩
  else if metal_score < 45/100 then
    ⟨"INVALID_INPUT", pyRound 4 metal_score, 0, 0⟩
  else
    successResponse metal_score (inspectDefects ())

/-! ## The geometric pipeline: `ZenDetector.analyze_surface` (`app/core/detector.py`) -/

/-- A decoded colour image: row count, column count, and a pixel function
giving the `(blue, green, red)` sample triple at each coordinate. -/
structure BGRImage where
  rows : ℕ
  cols : ℕ
  px : ℕ → ℕ → ℕ × ℕ × ℕ

/-- Models OpenCV's `BORDER_REFLECT_101` index reflection used by
`cv2.GaussianBlur` and the derivative filters: indices reflect about the
border pixels (`-1 ↦ 1`, `n ↦ n - 2`), with the single-pixel axis
special-cased to index `0`. -/
def reflect101 (n : ℕ) (i : ℤ) : ℕ :=
  if n ≤ 1 then 0
  else
    let p : ℤ := 2 * ((n : ℤ) - 1)
    let m := i.emod p
    (if m < (n : ℤ) then m else p - m).toNat

/-- Sample a single-channel image at possibly out-of-range coordinates,
reflecting them into range. -/
def at2 (f : ℕ → ℕ → ℕ) (rows cols : ℕ) (i j : ℤ) : ℕ :=
  f (reflect101 rows i) (reflect101 cols j)

/-- Models `cv2.cvtColor(image, cv2.COLOR_BGR2GRAY)`: OpenCV's fixed-point
ITU-R BT.601 luma, `(r*4899 + g*9617 + b*1868 + 8192) >> 14`. -/
def bgr2gray (img : BGRImage) : ℕ → ℕ → ℕ := fun i j =>
  let t := img.px i j
  (t.2.2 * 4899 + t.2.1 * 9617 + t.1 * 1868 + 8192) / 16384

/-- The 1-D binomial kernel `[1,4,6,4,1]` (over 16): OpenCV's precomputed
small Gaussian for `ksize = 5` with `sigma = 0`. -/
def gkernel : List ℕ := [1, 4, 6, 4, 1]

/-- Models `cv2.GaussianBlur(gray, (5, 5), 0)` on an 8-bit image: the 5×5
binomial kernel (weights summing to 256) with `BORDER_REFLECT_101`, the
weighted sum rounded to nearest. -/
def gaussianBlur5 (f : ℕ → ℕ → ℕ) (rows cols : ℕ) : ℕ → ℕ → ℕ := fun i j =>
  let s := ((List.range 5).map (fun a =>
    ((List.range 5).map (fun b =>
      gkernel.getD a 0 * gkernel.getD b 0 *
        at2 f rows cols ((i : ℤ) + a - 2) ((j : ℤ) + b - 2))).sum)).sum
  (s + 128) / 256

/-- The horizontal Sobel derivative kernel. -/
def sobelXK : List (List ℤ) := [[-1, 0, 1], [-2, 0, 2], [-1, 0, 1]]

/-- The vertical Sobel derivative kernel. -/
def sobelYK : List (List ℤ) := [[-1, -2, -1], [0, 0, 0], [1, 2, 1]]

/-- 3×3 convolution of an integer kernel with a single-channel image,
borders reflected. -/
def conv3 (k : List (List ℤ)) (f : ℕ → ℕ → ℕ) (rows cols : ℕ) (i j : ℕ) : ℤ :=
  ((List.range 3).map (fun a =>
    ((List.range 3).map (fun b =>
      (k.getD a []).getD b 0 *
        (at2 f rows cols ((i : ℤ) + a - 1) ((j : ℤ) + b - 1) : ℤ))).sum)).sum

/-- The gradient stage of `cv2.Canny`: Sobel first derivatives combined into
an L1 magnitude (OpenCV's default, `|gx| + |gy|`). -/
def gradMag (f : ℕ → ℕ → ℕ) (rows cols : ℕ) (i j : ℕ) : ℕ :=
  (conv3 sobelXK f rows cols i j).natAbs + (conv3 sobelYK f rows cols i j).natAbs

/-- Models `cv2.Canny(blurred, 50, 150)`: a pixel is an edge when its gradient
magnitude exceeds the high threshold, or exceeds the low threshold and has an
8-neighbour exceeding the high threshold. Non-maximum suppression and the
transitive closure of hysteresis are not modelled: both only affect pixels
whose gradient magnitude is nonzero, and every theorem below evaluates this
map either at concrete inputs or on images whose gradient vanishes
identically, where all variants coincide (no pixel reaches the low
threshold). -/
def cannyEdge (f : ℕ → ℕ → ℕ) (rows cols : ℕ) (i j : ℕ) : Bool :=
  let m := gradMag f rows cols i j
  if 150 < m then true
  else if 50 < m then
    (List.range 3).any (fun a => (List.range 3).any (fun b =>
      (!(a == 1 && b == 1)) &&
        decide (150 < gradMag f rows cols (reflect101 rows ((i : ℤ) + a - 1))
          (reflect101 cols ((j : ℤ) + b - 1)))))
  else false

/-- The coordinates of the foreground pixels of a binary mask, scanned in
row-major order. -/
def foregroundPixels (e : ℕ → ℕ → Bool) (rows cols : ℕ) : List (ℕ × ℕ) :=
  ((List.range rows).map (fun i =>
    ((List.range cols).filter (fun j => e i j)).map (fun j => (i, j)))).flatten

/-- 8-adjacency of two distinct pixel coordinates. -/
def adj8 (p q : ℕ × ℕ) : Bool :=
  decide (((p.1 : ℤ) - q.1).natAbs ≤ 1 ∧ ((p.2 : ℤ) - q.2).natAbs ≤ 1) &&
    !(decide (p = q))

/-- Fold step of the component scan: the new pixel absorbs every component it
is 8-adjacent to. -/
def addPixel (comps : List (List (ℕ × ℕ))) (p : ℕ × ℕ) : List (List (ℕ × ℕ)) :=
  (p :: (comps.filter (fun c => c.any (adj8 p))).flatten) ::
    comps.filter (fun c => !(c.any (adj8 p)))

/-- Models `cv2.findContours(edges, cv2.RETR_EXTERNAL, ...)`: the regions of
the binary edge map, as its maximal 8-connected pixel components. -/
def connectedComponents (ps : List (ℕ × ℕ)) : List (List (ℕ × ℕ)) :=
  ps.foldl addPixel []

/-- Models `cv2.contourArea` on a discovered region as the region's pixel
count (the specification's RegionAnalyzer defines a region's area as its
component pixel area). -/
def contourArea (c : List (ℕ × ℕ)) : ℚ := c.length

/-- `self.min_contour_area` from `ZenDetector.__init__`. -/
def minContourArea : ℚ := 10

/-- `self.defect_area_threshold` from `ZenDetector.__init__`. -/
def defectAreaThreshold : ℚ := 50

/-- The defect-score computation of `analyze_surface`
(`app/core/detector.py` lines 44-45):
`max_possible_area = rows * cols * 0.1` and
`defect_score = min((total_defect_area / max_possible_area) * 100, 100)`. -/
def defectScoreOf (total : ℚ) (rows cols : ℕ) : ℚ :=
  let maxPossibleArea : ℚ := (rows : ℚ) * (cols : ℚ) * (1/10)
  min ((total / maxPossibleArea) * 100) 100

/-- The result dictionary of `ZenDetector.analyze_surface`. The success
branch populates `total_defect_area` and leaves `error` empty; the failure
branch does the opposite. -/
structure AnalysisResult where
  status : String
  defect_score : ℚ
  number_of_defects : ℕ
  total_defect_area : Option ℚ
  error : Option String
deriving DecidableEq

/-- The body of the `try` block of `analyze_surface` after a successful
decode (`app/core/detector.py` lines 18-52): grayscale, 5×5 Gaussian blur,
Canny edges, contour extraction, the accumulation loop filtering regions of
area at least `min_contour_area` (expressed as the equivalent filter and
sum), the area-threshold verdict, and the defect score. -/
def analyzeImage (img : BGRImage) : AnalysisResult :=
  let gray := bgr2gray img
  let blurred := gaussianBlur5 gray img.rows img.cols
  let contours := connectedComponents
    (foregroundPixels (fun i j => cannyEdge blurred img.rows img.cols i j)
      img.rows img.cols)
  let significant := contours.filter (fun c => minContourArea ≤ contourArea c)
  let total : ℚ := (significant.map contourArea).sum
  let status := if defectAreaThreshold < total then "Fail" else "Pass"
  ⟨status, pyRound 1 (defectScoreOf total img.rows img.cols),
    significant.length, some (pyRound 1 total), none⟩

/-- Models `cv2.imdecode(nparr, cv2.IMREAD_COLOR)` over a minimal
uncompressed raster encoding: a two-entry width/height header followed by
exactly `w*h*3` BGR samples in row-major order. Any other buffer is
unparseable and yields `none`, as `cv2.imdecode` yields `None`. -/
def imdecode (data : List ℕ) : Option BGRImage :=
  match data with
  | w :: h :: rest =>
    if w = 0 ∨ h = 0 ∨ rest.length ≠ w * h * 3 then none
    else some ⟨h, w, fun i j =>
      (rest.getD (3 * (i * w + j)) 0, rest.getD (3 * (i * w + j) + 1) 0,
        rest.getD (3 * (i * w + j) + 2) 0)⟩
  | _ => none

/-- The dictionary returned by the `except` branch of `analyze_surface`
(`app/core/detector.py` lines 54-60) when the decode raises
`ValueError("Unable to decode image")`. -/
def decodeFailureResult : AnalysisResult :=
  ⟨"Fail", 100, 0, none, some "Unable to decode image"⟩

/-- `ZenDetector.analyze_surface` (`app/core/detector.py` lines 10-60):
decode the byte buffer and analyze the image; any failure inside the `try`
block — in this model, the decode failure, the only raising operation — is
caught and mapped to the substituted failure dictionary. -/
def analyze_surface (data : List ℕ) : AnalysisResult :=
  match imdecode data with
  | none => decodeFailureResult
  | some img => analyzeImage img

/-- Modelled from the spec: the geometric-mode decision rule of the
DecisionPolicy component (spec §4.5) — `FAIL` requires BOTH
`healthScore` below the pass threshold (default 90) AND defect count above
the allowed maximum (default 5); any other combination is `PASS`. The
Sobel/Otsu geometric pipeline implementing this rule is part of the
repository not included here (the spec's §9 records two divergent predict
implementations; `ZenDetector.analyze_surface` decides from total defect
area alone and takes neither a health score nor a count). -/
def geometricVerdict (healthScore : ℚ) (defectCount : ℕ) : String :=
  if healthScore < 90 ∧ 5 < defectCount then "FAIL" else "PASS"

/-- The geometric-mode defect-score formula exactly as the specification
words it (§4.4), for comparison with `defectScoreOf` from the source:
`min(100, (significantArea / (imageArea × 0.1)) × 100) / 100`. -/
def specDefectScore (significantArea imageArea : ℚ) : ℚ :=
  (min 100 ((significantArea / (imageArea * (1/10))) * 100)) / 100

/-! ## Helper lemmas -/

theorem reflect101_lt (n : ℕ) (hn : 0 < n) (i : ℤ) : reflect101 n i < n := by
  unfold reflect101
  split
  · omega
  · rename_i h
    have hp : (0:ℤ) < 2 * ((n:ℤ) - 1) := by omega
    have h0 := Int.emod_nonneg i (ne_of_gt hp)
    have h1 := Int.emod_lt_of_pos i hp
    simp only []
    split <;> omega

theorem at2_const (f : ℕ → ℕ → ℕ) (rows cols c : ℕ)
    (hf : ∀ i j, i < rows → j < cols → f i j = c)
    (hr : 0 < rows) (hc : 0 < cols) (i j : ℤ) : at2 f rows cols i j = c :=
  hf _ _ (reflect101_lt _ hr i) (reflect101_lt _ hc j)

theorem bgr2gray_const (img : BGRImage) (c : ℕ)
    (hpx : ∀ i j, i < img.rows → j < img.cols → img.px i j = (c, c, c)) :
    ∀ i j, i < img.rows → j < img.cols → bgr2gray img i j = c := by
  intro i j hi hj
  simp only [bgr2gray, hpx i j hi hj]
  omega

theorem gaussianBlur5_const (f : ℕ → ℕ → ℕ) (rows cols c : ℕ)
    (hf : ∀ i j, i < rows → j < cols → f i j = c)
    (hr : 0 < rows) (hc : 0 < cols) (i j : ℕ) :
    gaussianBlur5 f rows cols i j = c := by
  unfold gaussianBlur5
  simp only [at2_const f rows cols c hf hr hc]
  have h2 : (((List.range 5).map (fun a =>
      ((List.range 5).map (fun b => gkernel.getD a 0 * gkernel.getD b 0 * c)).sum)).sum)
      = 256 * c := by
    simp [List.range_succ, gkernel]
    ring
  rw [h2]
  omega

theorem conv3_const (k : List (List ℤ)) (hk : k = sobelXK ∨ k = sobelYK)
    (f : ℕ → ℕ → ℕ) (rows cols c : ℕ)
    (hf : ∀ i j, i < rows → j < cols → f i j = c)
    (hr : 0 < rows) (hc : 0 < cols) (i j : ℕ) :
    conv3 k f rows cols i j = 0 := by
  unfold conv3
  simp only [at2_const f rows cols c hf hr hc]
  rcases hk with h | h
  · subst h
    simp [List.range_succ, sobelXK]
  · subst h
    simp [List.range_succ, sobelYK]
    ring

theorem gradMag_const (f : ℕ → ℕ → ℕ) (rows cols c : ℕ)
    (hf : ∀ i j, i < rows → j < cols → f i j = c)
    (hr : 0 < rows) (hc : 0 < cols) (i j : ℕ) :
    gradMag f rows cols i j = 0 := by
  unfold gradMag
  rw [conv3_const sobelXK (Or.inl rfl) f rows cols c hf hr hc,
    conv3_const sobelYK (Or.inr rfl) f rows cols c hf hr hc]
  rfl

theorem cannyEdge_const (f : ℕ → ℕ → ℕ) (rows cols c : ℕ)
    (hf : ∀ i j, i < rows → j < cols → f i j = c)
    (hr : 0 < rows) (hc : 0 < cols) (i j : ℕ) :
    cannyEdge f rows cols i j = false := by
  unfold cannyEdge
  simp only [gradMag_const f rows cols c hf hr hc]
  norm_num

theorem foregroundPixels_empty (e : ℕ → ℕ → Bool) (rows cols : ℕ)
    (he : ∀ i j, e i j = false) : foregroundPixels e rows cols = [] := by
  unfold foregroundPixels
  simp [he]

theorem defectScoreOf_zero (rows cols : ℕ) : defectScoreOf 0 rows cols = 0 := by
  unfold defectScoreOf
  simp only [zero_div, zero_mul]
  exact min_eq_left (by norm_num)

theorem pyRound_zero (n : ℕ) : pyRound n 0 = 0 := by
  unfold pyRound roundHalfEven
  norm_num

theorem analyzeImage_uniform (img : BGRImage) (c : ℕ)
    (hr : 0 < img.rows) (hc : 0 < img.cols)
    (hpx : ∀ i j, i < img.rows → j < img.cols → img.px i j = (c, c, c)) :
    analyzeImage img = ⟨"Pass", 0, 0, some 0, none⟩ := by
  simp only [analyzeImage]
  have hgray := bgr2gray_const img c hpx
  have hblur : ∀ i j, i < img.rows → j < img.cols →
      gaussianBlur5 (bgr2gray img) img.rows img.cols i j = c := fun i j _ _ =>
    gaussianBlur5_const (bgr2gray img) img.rows img.cols c hgray hr hc i j
  have hedge : ∀ i j, cannyEdge (gaussianBlur5 (bgr2gray img) img.rows img.cols)
      img.rows img.cols i j = false := fun i j =>
    cannyEdge_const _ img.rows img.cols c hblur hr hc i j
  rw [foregroundPixels_empty _ _ _ hedge]
  simp [connectedComponents, defectScoreOf_zero, pyRound_zero, defectAreaThreshold]

theorem getD_replicate_of_lt (n i a d : ℕ) (h : i < n) :
    (List.replicate n a).getD i d = a := by
  simp [List.getD_eq_getElem?_getD, List.getElem?_replicate, h]

theorem imdecode_uniform (w h c : ℕ) (hw : 0 < w) (hh : 0 < h) :
    ∃ img, imdecode (w :: h :: List.replicate (w * h * 3) c) = some img ∧
      img.rows = h ∧ img.cols = w ∧
      (∀ i j, i < img.rows → j < img.cols → img.px i j = (c, c, c)) := by
  refine ⟨⟨h, w, fun i j =>
    ((List.replicate (w * h * 3) c).getD (3 * (i * w + j)) 0,
      (List.replicate (w * h * 3) c).getD (3 * (i * w + j) + 1) 0,
      (List.replicate (w * h * 3) c).getD (3 * (i * w + j) + 2) 0)⟩, ?_, rfl, rfl, ?_⟩
  · unfold imdecode
    simp [hw.ne', hh.ne']
  · intro i j hi hj
    dsimp only at hi hj
    have hb : 3 * (i * w + j) + 2 < w * h * 3 := by
      have h1 : i * w + j < h * w := by
        calc i * w + j < i * w + w := by omega
        _ = (i + 1) * w := by ring
        _ ≤ h * w := Nat.mul_le_mul_right w (by omega)
      nlinarith
    simp only []
    rw [getD_replicate_of_lt _ _ _ _ (by omega),
      getD_replicate_of_lt _ _ _ _ (by omega),
      getD_replicate_of_lt _ _ _ _ (by omega)]

theorem apply_business_logic_pass_eq (p : ℚ) (h0 : 0 ≤ p) (hle : p ≤ 1/2) :
    apply_business_logic p = ("PASS", 100 - p * 20) := by
  unfold apply_business_logic
  rw [if_pos hle]
  dsimp only
  rw [min_eq_right (by linarith), max_eq_right (by linarith)]

theorem apply_business_logic_fail_eq (p : ℚ) (hgt : 1/2 < p) (h1 : p ≤ 1) :
    apply_business_logic p = ("FAIL", (1 - p) * 80) := by
  unfold apply_business_logic
  rw [if_neg (by linarith)]
  dsimp only
  rw [min_eq_right (by nlinarith), max_eq_right (by nlinarith)]

theorem apply_business_logic_status (p : ℚ) :
    (apply_business_logic p).1 = "PASS" ∨ (apply_business_logic p).1 = "FAIL" := by
  unfold apply_business_logic
  split <;> simp

/-! ## The claims -/

/-- C1: for every inspection with a gatekeeper score `g`: if
`0.45 ≤ g ≤ 0.55` (endpoints included) the verdict is `UNCERTAIN` and defect
evaluation is not performed (the response is independent of the defect
model); if `g < 0.45` the verdict is `INVALID_INPUT`; if `g > 0.55` the
pipeline proceeds to defect evaluation, producing the success-path response
built from the defect model's output. -/
theorem predict_gatekeeper_band (m : ℚ) (f g : Unit → ℚ) :
    (45/100 ≤ m ∧ m ≤ 55/100 →
      (predict m f).status = "UNCERTAIN" ∧ predict m f = predict m g) ∧
    (m < 45/100 → (predict m f).status = "INVALID_INPUT") ∧
    (55/100 < m → predict m f = successResponse m (f ())) := by
  refine ⟨fun h => ?_, fun h => ?_, fun h => ?_⟩
  · unfold predict
    rw [if_pos h]
    exact ⟨rfl, (if_pos h).symm⟩
  · unfold predict
    rw [if_neg (by rintro ⟨h1, _⟩; linarith), if_pos h]
  · unfold predict
    rw [if_neg (by rintro ⟨_, h2⟩; linarith), if_neg (by linarith)]

/-- Witness for C1 at the claim's literal boundary values: `0.449` is
rejected, `0.45` and `0.55` are uncertain, and `0.551` proceeds to defect
evaluation. -/
theorem predict_gatekeeper_band_witness :
    (predict (449/1000) (fun _ => 0)).status = "INVALID_INPUT" ∧
    (predict (45/100) (fun _ => 0)).status = "UNCERTAIN" ∧
    (predict (55/100) (fun _ => 0)).status = "UNCERTAIN" ∧
    predict (551/1000) (fun _ => (3:ℚ)/10) = successResponse (551/1000) (3/10) :=
  ⟨(predict_gatekeeper_band (449/1000) (fun _ => 0) (fun _ => 0)).2.1 (by norm_num),
   ((predict_gatekeeper_band (45/100) (fun _ => 0) (fun _ => 0)).1 (by norm_num)).1,
   ((predict_gatekeeper_band (55/100) (fun _ => 0) (fun _ => 0)).1 (by norm_num)).1,
   (predict_gatekeeper_band (551/1000) (fun _ => (3:ℚ)/10) (fun _ => 0)).2.2 (by norm_num)⟩

/-- C2: in classifier mode, for every probability `p ∈ [0, 1]`: if `p ≤ 0.5`
the verdict is `PASS` with health score `100 - p*20`, and if `p > 0.5` the
verdict is `FAIL` with health score `(1 - p)*80`. -/
theorem classifier_mode_mapping (p : ℚ) (h0 : 0 ≤ p) (h1 : p ≤ 1) :
    (p ≤ 1/2 → apply_business_logic p = ("PASS", 100 - p * 20)) ∧
    (1/2 < p → apply_business_logic p = ("FAIL", (1 - p) * 80)) :=
  ⟨fun hle => apply_business_logic_pass_eq p h0 hle,
   fun hgt => apply_business_logic_fail_eq p hgt h1⟩

/-- Witness for C2 at the claim's literal values: `p = 0.5` yields `PASS`
with health exactly `90`, and `p = 0.50001` yields `FAIL` with health
exactly `39.9992`. -/
theorem classifier_mode_mapping_witness :
    apply_business_logic (1/2) = ("PASS", 90) ∧
    apply_business_logic (50001/100000) = ("FAIL", 399992/10000) := by
  constructor
  · have h := (classifier_mode_mapping (1/2) (by norm_num) (by norm_num)).1 (by norm_num)
    rw [h]
    norm_num
  · have h := (classifier_mode_mapping (50001/100000) (by norm_num) (by norm_num)).2
      (by norm_num)
    rw [h]
    norm_num

/-- C3 (settled against the spec-modelled `geometricVerdict`, as the
conjunctive geometric decision rule is repository code not included here):
the geometric-mode verdict is `FAIL` if and only if BOTH the health score is
below the pass threshold 90 AND the defect count exceeds the allowed
maximum 5; in particular health 85 with count 7 fails, while health 85 with
count 3 and health 95 with count 7 both pass. -/
theorem geometric_conjunctive_rule :
    (∀ (h : ℚ) (c : ℕ), geometricVerdict h c = "FAIL" ↔ h < 90 ∧ 5 < c) ∧
    geometricVerdict 85 7 = "FAIL" ∧ geometricVerdict 85 3 = "PASS" ∧
    geometricVerdict 95 7 = "PASS" := by
  refine ⟨fun h c => ?_, by norm_num [geometricVerdict], by norm_num [geometricVerdict],
    by norm_num [geometricVerdict]⟩
  unfold geometricVerdict
  split
  · rename_i hc
    exact iff_of_true rfl hc
  · rename_i hc
    exact iff_of_false (by decide) hc

/-- C4 counterexample: the claim says a uniform flat-gray decodable image
makes the feature-extraction pipeline fail with `FeatureExtractionError` and
never yields a silent `PASS`. At the concrete uniform 3×3 gray-200 image the
pipeline raises nothing (the `error` field is empty) and returns exactly a
silent `Pass` verdict with zero defects. -/
theorem uniform_image_no_error_counterexample :
    (analyze_surface (3 :: 3 :: List.replicate 27 200)).status = "Pass" ∧
    (analyze_surface (3 :: 3 :: List.replicate 27 200)).error = none ∧
    (analyze_surface (3 :: 3 :: List.replicate 27 200)).number_of_defects = 0 := by
  obtain ⟨img, hdec, hr, hc, hpx⟩ := imdecode_uniform 3 3 200 (by norm_num) (by norm_num)
  have h1 : analyze_surface (3 :: 3 :: List.replicate 27 200) = analyzeImage img := by
    unfold analyze_surface
    rw [show (3 :: 3 :: List.replicate 27 200 : List ℕ) =
      3 :: 3 :: List.replicate (3 * 3 * 3) 200 from rfl, hdec]
  rw [h1, analyzeImage_uniform img 200 (hr ▸ by norm_num) (hc ▸ by norm_num) hpx]
  exact ⟨rfl, rfl, rfl⟩

/-- C4 as amended: for every uniform (flat-gray, zero-gradient) decodable
image, `analyze_surface` raises no error and returns a silent `Pass` verdict
with zero significant defects, zero total defect area and defect score `0`
(no `FeatureExtractionError` exists in the code). -/
theorem analyze_surface_uniform_pass (w h c : ℕ) (hw : 0 < w) (hh : 0 < h) :
    analyze_surface (w :: h :: List.replicate (w * h * 3) c) =
      ⟨"Pass", 0, 0, some 0, none⟩ := by
  obtain ⟨img, hdec, hr, hc, hpx⟩ := imdecode_uniform w h c hw hh
  unfold analyze_surface
  rw [hdec]
  exact analyzeImage_uniform img c (hr ▸ hh) (hc ▸ hw) hpx

/-- Witness for the amended C4 at a concrete uniform 2×2 gray-128 image. -/
theorem analyze_surface_uniform_pass_witness :
    analyze_surface (2 :: 2 :: List.replicate (2 * 2 * 3) 128) =
      ⟨"Pass", 0, 0, some 0, none⟩ :=
  analyze_surface_uniform_pass 2 2 128 (by norm_num) (by norm_num)

/-- C5 counterexample: the claim says an unparseable byte buffer fails with
a typed `DecodeError` and the core never substitutes a fabricated safe-default
verdict. At the concrete undecodable buffer `[]` the code instead returns a
fabricated result with status `Fail` and the default defect score `100`. -/
theorem undecodable_fabricated_verdict_counterexample :
    analyze_surface [] = ⟨"Fail", 100, 0, none, some "Unable to decode image"⟩ ∧
    (analyze_surface []).status = "Fail" ∧ (analyze_surface []).defect_score = 100 :=
  ⟨rfl, rfl, rfl⟩

/-- C5 as amended: for every byte buffer that cannot be parsed as an image,
`analyze_surface` does not propagate a typed error; the decode failure is
caught and mapped to a substituted result with status `Fail`, defect score
`100.0`, zero defects and an error message string. -/
theorem decode_failure_substituted_fail (data : List ℕ) (h : imdecode data = none) :
    analyze_surface data =
      ⟨"Fail", 100, 0, none, some "Unable to decode image"⟩ := by
  unfold analyze_surface
  rw [h]
  rfl

/-- Witness for the amended C5 at the concrete undecodable buffer `[7]`. -/
theorem decode_failure_substituted_fail_witness :
    analyze_surface [7] = ⟨"Fail", 100, 0, none, some "Unable to decode image"⟩ :=
  decode_failure_substituted_fail [7] rfl

/-- C6: in classifier mode, for all probabilities `p1 ≤ 0.5` and `p2 > 0.5`
in `[0, 1]`, the health score of the `PASS` input `p1` is strictly greater
than the health score of the `FAIL` input `p2`. -/
theorem pass_health_above_fail_health (p1 p2 : ℚ) (h0 : 0 ≤ p1) (h1 : p1 ≤ 1/2)
    (h2 : 1/2 < p2) (h3 : p2 ≤ 1) :
    (apply_business_logic p2).2 < (apply_business_logic p1).2 := by
  rw [apply_business_logic_pass_eq p1 h0 h1, apply_business_logic_fail_eq p2 h2 h3]
  dsimp only
  linarith

/-- Witness for C6 at `p1 = 0.5` and `p2 = 0.75`. -/
theorem pass_health_above_fail_health_witness :
    (apply_business_logic (3/4)).2 < (apply_business_logic (1/2)).2 :=
  pass_health_above_fail_health (1/2) (3/4) (by norm_num) (by norm_num) (by norm_num)
    (by norm_num)

/-- C7 counterexample: the claim's formula
`defectScore = min(100, (significantArea / (imageArea × 0.1)) × 100) / 100`
does not match the code. At significant area `20` on a 20×20 image the code
computes `50` while the claim's formula gives `1/2`. -/
theorem defect_score_formula_counterexample :
    defectScoreOf 20 20 20 = 50 ∧ specDefectScore 20 400 = 1/2 ∧ ((50:ℚ) ≠ 1/2) := by
  refine ⟨?_, ?_, by norm_num⟩
  · unfold defectScoreOf
    norm_num [min_def]
  · unfold specDefectScore
    norm_num [min_def]

/-- C7 as amended: the geometric defect score is
`min((significantArea / (imageArea × 0.1)) × 100, 100)` — the percentage
form, without the claim's final division by 100 — and for every nonnegative
significant area and positive image dimensions it lies in `[0, 100]` and is
non-decreasing in the significant area. -/
theorem defectScoreOf_range_mono (total total' : ℚ) (rows cols : ℕ)
    (h0 : 0 ≤ total) (hmono : total ≤ total') (hr : 0 < rows) (hc : 0 < cols) :
    0 ≤ defectScoreOf total rows cols ∧ defectScoreOf total rows cols ≤ 100 ∧
    defectScoreOf total rows cols ≤ defectScoreOf total' rows cols := by
  have h1 : (0:ℚ) < rows := by exact_mod_cast hr
  have h2 : (0:ℚ) < cols := by exact_mod_cast hc
  have hR : (0:ℚ) < (rows:ℚ) * (cols:ℚ) * (1/10) := by positivity
  unfold defectScoreOf
  refine ⟨le_min (mul_nonneg (div_nonneg h0 hR.le) (by norm_num)) (by norm_num),
    min_le_right _ _,
    min_le_min (mul_le_mul_of_nonneg_right ((div_le_div_iff_of_pos_right hR).mpr hmono)
      (by norm_num)) le_rfl⟩

/-- Witness for the amended C7 at areas `20 ≤ 30` on a 20×20 image. -/
theorem defectScoreOf_range_mono_witness :
    0 ≤ defectScoreOf 20 20 20 ∧ defectScoreOf 20 20 20 ≤ 100 ∧
    defectScoreOf 20 20 20 ≤ defectScoreOf 30 20 20 :=
  defectScoreOf_range_mono 20 30 20 20 (by norm_num) (by norm_num) (by norm_num)
    (by norm_num)

/-- C8: the pipeline is deterministic — two runs of the inspection on
identical bytes, and of the predict decision on an identical gatekeeper
score and identical defect model, yield identical results. The embedded
pipeline is a pure function of its inputs (the source reads no state other
than its arguments and fixed configuration), so equal inputs give equal
outputs. -/
theorem pipeline_deterministic (d1 d2 : List ℕ) (m : ℚ) (f g : Unit → ℚ)
    (hd : d1 = d2) (hf : f = g) :
    analyze_surface d1 = analyze_surface d2 ∧ predict m f = predict m g := by
  subst hd
  subst hf
  exact ⟨rfl, rfl⟩

/-- Witness for C8 at a concrete buffer and score. -/
theorem pipeline_deterministic_witness :
    analyze_surface [] = analyze_surface [] ∧
    predict (1/2) (fun _ => 0) = predict (1/2) (fun _ => 0) :=
  pipeline_deterministic [] [] (1/2) (fun _ => 0) (fun _ => 0) rfl rfl

/-- C9: `analyze_surface` is total over arbitrary byte input — it is a
function returning a result for every buffer, and every internal failure
(in this model the decode failure, the only raising operation) is caught and
mapped to a result with status `Fail`, defect score `100.0`, zero defects
and an error message; on the success path the error field is empty. -/
theorem analyze_surface_total (data : List ℕ) :
    (∃ img, imdecode data = some img ∧ analyze_surface data = analyzeImage img ∧
      (analyzeImage img).error = none) ∨
    (imdecode data = none ∧ analyze_surface data =
      ⟨"Fail", 100, 0, none, some "Unable to decode image"⟩) := by
  cases hdec : imdecode data with
  | none =>
    right
    refine ⟨rfl, ?_⟩
    unfold analyze_surface
    rw [hdec]
    rfl
  | some img =>
    left
    refine ⟨img, rfl, ?_, rfl⟩
    unfold analyze_surface
    rw [hdec]

/-- C10: every `UNCERTAIN` and every `INVALID_INPUT` verdict produced by the
predict operation carries the fixed placeholder values
`defect_score = 0.0` and `health_score = 0.0`. -/
theorem uncertain_invalid_zero_scores (m : ℚ) (f : Unit → ℚ)
    (h : (predict m f).status = "UNCERTAIN" ∨ (predict m f).status = "INVALID_INPUT") :
    (predict m f).defect_score = 0 ∧ (predict m f).health_score = 0 := by
  by_cases hb : 45/100 ≤ m ∧ m ≤ 55/100
  · simp [predict, hb]
  · by_cases hl : m < 45/100
    · simp [predict, hb, hl]
    · exfalso
      rcases h with h | h <;>
        simp only [predict, if_neg hb, if_neg hl, successResponse] at h <;>
        rcases apply_business_logic_status (f ()) with hs | hs <;>
        rw [hs] at h <;>
        exact absurd h (by decide)

/-- Witness for C10 at the in-band gatekeeper score `0.5`. -/
theorem uncertain_invalid_zero_scores_witness :
    (predict (1/2) (fun _ => 0)).defect_score = 0 ∧
    (predict (1/2) (fun _ => 0)).health_score = 0 :=
  uncertain_invalid_zero_scores (1/2) (fun _ => 0) (Or.inl (by norm_num [predict]))
